import Mathlib

/-!
Verification development for the mev-rs builder/relay core.

The development shallowly embeds two source files:
- mev-build-rs/src/greedy.rs: the Helper trait (profit, cut_off_price,
  is_order_in_price_range) implemented for TransactionSignedEcRecovered and
  ValidPoolTransaction.
- mev-relay-rs/src/relay.rs: the relay auction state machine
  (validate_bid_request, fetch_best_bid, open_bid, on_slot) over a payload
  cache keyed by BidRequest.

Modelling conventions:
- Slots, epochs, hashes, BLS keys, roots, addresses, signatures and wei
  values are natural numbers. Slot arithmetic is modelled unbounded: slot
  values live far below 2 to the 64 in any reachable chain state.
- The u128 fee arithmetic of greedy.rs is modelled with an explicit modulus
  U128_LIMIT where the source multiplies two u128 values, since the product
  max_fee_per_gas * percent can exceed the u128 range.
- External collaborators (the builder, SSZ header derivation, BLS signing and
  signature verification, the validator registry) are fields of the Relay
  structure, i.e. universally quantified oracles; the relay control flow is
  translated statement by statement from relay.rs.
- A Rust panic (unwrap on None, the unimplemented macro) is modelled by a
  dedicated constructor of PanicOr / RunResult rather than by a default
  value, so divergence is observable in theorems.
-/

namespace MevRs

/-- Slots are u64 in the source; modelled as unbounded naturals. -/
abbrev Slot := Nat

/-- 32-byte hashes, modelled abstractly. -/
abbrev Hash32 := Nat

/-- BLS public keys, modelled abstractly. -/
abbrev BlsPublicKey := Nat

/-- Merkle roots, modelled abstractly. -/
abbrev Root := Nat

/-- Execution-layer addresses, modelled abstractly. -/
abbrev Address := Nat

/-- Result of running code that may panic: either a value or divergence. -/
inductive PanicOr (α : Type) where
  | ok (value : α)
  | panicked
deriving DecidableEq, Repr

/-- The u128 modulus: wrapping arithmetic on u128 values reduces mod this. -/
def U128_LIMIT : Nat := 2 ^ 128

/-! ## greedy.rs: the Helper trait and its two implementations -/

/-- The fee fields of reth's TransactionSignedEcRecovered that the Helper
trait reads. max_fee_per_gas is a u128; max_priority_fee_per_gas is absent
for legacy transactions. -/
structure TransactionSignedEcRecovered where
  max_fee_per_gas : Nat
  max_priority_fee_per_gas : Option Nat
deriving DecidableEq, Repr

/-- External reth function, modelled at its interface per the spec: the
effective tip per gas is undefined (None) when the base fee exceeds
max_fee_per_gas; otherwise it is the tip max_fee_per_gas - base_fee, capped
by max_priority_fee_per_gas when that field is present. A missing base fee
is treated as zero. -/
def TransactionSignedEcRecovered.effective_tip_per_gas
    (tx : TransactionSignedEcRecovered) (base_fee : Option Nat) : Option Nat :=
  let bf := base_fee.getD 0
  if tx.max_fee_per_gas < bf then
    none
  else
    let tip := tx.max_fee_per_gas - bf
    match tx.max_priority_fee_per_gas with
    | some max_tip => some (min tip max_tip)
    | none => some tip

/-- Helper::profit for TransactionSignedEcRecovered: the source unwraps the
Option returned by effective_tip_per_gas, so a None panics. The gas_used
argument is accepted and never read, exactly as in the source. -/
def TransactionSignedEcRecovered.profit (tx : TransactionSignedEcRecovered)
    (base_fee : Nat) (gas_used : Nat) : PanicOr Nat :=
  match tx.effective_tip_per_gas (some base_fee) with
  | some value => PanicOr.ok value
  | none => PanicOr.panicked

/-- Helper::cut_off_price for TransactionSignedEcRecovered:
max_fee_per_gas * cutt_off_percent / 100 in u128 arithmetic. The u128
multiplication wraps, hence the explicit modulus; the division cannot
overflow. -/
def TransactionSignedEcRecovered.cut_off_price (tx : TransactionSignedEcRecovered)
    (cutt_off_percent : Nat) : Nat :=
  tx.max_fee_per_gas * cutt_off_percent % U128_LIMIT / 100

/-- Helper::is_order_in_price_range for TransactionSignedEcRecovered:
non-strict comparison of max_fee_per_gas against the minimum price. -/
def TransactionSignedEcRecovered.is_order_in_price_range
    (tx : TransactionSignedEcRecovered) (min_price : Nat) : Bool :=
  decide (tx.max_fee_per_gas ≥ min_price)

/-- reth's ValidPoolTransaction wraps an inner transaction; the fee accessors
delegate to it. Only the delegated fields are modelled. -/
structure ValidPoolTransaction where
  transaction : TransactionSignedEcRecovered
deriving DecidableEq, Repr

/-- Delegated accessor. -/
def ValidPoolTransaction.max_fee_per_gas (tx : ValidPoolTransaction) : Nat :=
  tx.transaction.max_fee_per_gas

/-- Pool-side effective tip: same computation with a mandatory base fee. -/
def ValidPoolTransaction.effective_tip_per_gas (tx : ValidPoolTransaction)
    (base_fee : Nat) : Option Nat :=
  tx.transaction.effective_tip_per_gas (some base_fee)

/-- Helper::profit for ValidPoolTransaction: unwraps the effective tip, so a
None panics; gas_used is never read. -/
def ValidPoolTransaction.profit (tx : ValidPoolTransaction)
    (base_fee : Nat) (gas_used : Nat) : PanicOr Nat :=
  match tx.effective_tip_per_gas base_fee with
  | some value => PanicOr.ok value
  | none => PanicOr.panicked

/-- Helper::cut_off_price for ValidPoolTransaction: identical formula to the
signed-transaction implementation. -/
def ValidPoolTransaction.cut_off_price (tx : ValidPoolTransaction)
    (cutt_off_percent : Nat) : Nat :=
  tx.max_fee_per_gas * cutt_off_percent % U128_LIMIT / 100

/-- Helper::is_order_in_price_range for ValidPoolTransaction. -/
def ValidPoolTransaction.is_order_in_price_range (tx : ValidPoolTransaction)
    (min_price : Nat) : Bool :=
  decide (tx.max_fee_per_gas ≥ min_price)

/-! ## relay.rs: data model -/

/-- A bid request (the auction identity): slot, parent hash and proposer
public key. Equality and hashing are over all three fields, as derived for
the Rust struct. -/
structure BidRequest where
  slot : Slot
  parent_hash : Hash32
  public_key : BlsPublicKey
deriving DecidableEq, Repr

/-- The consensus context fields read by relay.rs. -/
structure Context where
  bellatrix_fork_epoch : Nat
  capella_fork_epoch : Nat
  slots_per_epoch : Nat
  terminal_block_hash : Hash32
deriving DecidableEq, Repr

/-- PROPOSAL_TOLERANCE_DELAY from relay.rs: how many slots past its target a
cached payload survives. -/
def PROPOSAL_TOLERANCE_DELAY : Slot := 1

/-- The fork names dispatched on by is_slot_timely. validate_bid_request
hardcodes Bellatrix; the wildcard arm of the source match (which panics) is
unreachable for the two listed names and is not part of this type. -/
inductive ForkName where
  | bellatrix
  | capella
deriving DecidableEq, Repr

/-- A validator registration record: the preferences the relay reads. -/
structure ValidatorRegistration where
  fee_recipient : Address
  gas_limit : Nat
deriving DecidableEq, Repr

/-- The query surface of the external ValidatorRegistry collaborator, as
consumed by relay.rs. get_public_key returns none when the proposer index
does not resolve (the Err case of the source Result). -/
structure ValidatorRegistry where
  get_validator_index : BlsPublicKey → Option Nat
  get_preferences : BlsPublicKey → Option ValidatorRegistration
  get_public_key : Nat → Option BlsPublicKey

/-- The payload fields relay.rs reads: gas limit and block hash. -/
structure PayloadData where
  gas_limit : Nat
  block_hash : Hash32
deriving DecidableEq, Repr

/-- Fork-tagged execution payload (mev-rs types): a closed union over the
Bellatrix, Capella and Deneb variants. -/
inductive ExecutionPayload where
  | bellatrix (data : PayloadData)
  | capella (data : PayloadData)
  | deneb (data : PayloadData)
deriving DecidableEq, Repr

/-- Fork dispatch accessor for the payload gas limit. -/
def ExecutionPayload.gas_limit : ExecutionPayload → Nat
  | .bellatrix data => data.gas_limit
  | .capella data => data.gas_limit
  | .deneb data => data.gas_limit

/-- Fork dispatch accessor for the payload block hash. -/
def ExecutionPayload.block_hash : ExecutionPayload → Hash32
  | .bellatrix data => data.block_hash
  | .capella data => data.block_hash
  | .deneb data => data.block_hash

/-- Fork-tagged execution payload header; only the fields flowing into the
bid message are modelled. -/
inductive ExecutionPayloadHeader where
  | bellatrix (data : PayloadData)
  | capella (data : PayloadData)
  | deneb (data : PayloadData)
deriving DecidableEq, Repr

/-- The builder bid message: header, value and the relay public key. The
Bellatrix and Capella message types share this content shape. -/
structure BuilderBid where
  header : PayloadData
  value : Nat
  public_key : BlsPublicKey
deriving DecidableEq, Repr

/-- A signed builder bid, fork-tagged. fetch_best_bid constructs only the
Bellatrix and Capella variants; the Deneb arm of its dispatch panics. -/
inductive SignedBuilderBid where
  | bellatrix (message : BuilderBid) (signature : Nat)
  | capella (message : BuilderBid) (signature : Nat)
deriving DecidableEq, Repr

/-- The fields of a signed blinded beacon block that open_bid reads. -/
structure SignedBlindedBeaconBlock where
  slot : Slot
  parent_hash : Hash32
  proposer_index : Nat
  block_hash : Hash32
  signature : Nat
deriving DecidableEq, Repr

/-- Relay errors: the mev-rs Error variants reachable from relay.rs, plus
numbered codes standing for upstream builder, consensus-serialization and
signing failures propagated from collaborators. -/
inductive Error where
  | InvalidSlot
  | InvalidParentHash
  | ValidatorNotRegistered (public_key : BlsPublicKey)
  | MissingPreferences (public_key : BlsPublicKey)
  | InvalidGasLimit
  | UnknownBid
  | UnknownBlock
  | InvalidSignature
  | UnknownValidatorIndex (index : Nat)
  | UpstreamBuilder (code : Nat)
  | Consensus (code : Nat)
deriving DecidableEq, Repr

/-- Result of a relay operation that can panic as well as fail. -/
inductive RunResult (α : Type) where
  | ok (value : α)
  | err (error : Error)
  | panicked
deriving DecidableEq, Repr

/-- The relay state: the execution-payload cache, a map from BidRequest to
ExecutionPayload. Modelled as an association list with HashMap semantics:
insert overwrites, remove takes, retain filters. -/
abbrev PayloadCache := List (BidRequest × ExecutionPayload)

/-- HashMap.insert semantics on the association list: the new binding
replaces any existing binding for the same key. -/
def cacheInsert (cache : PayloadCache) (key : BidRequest)
    (payload : ExecutionPayload) : PayloadCache :=
  (key, payload) :: cache.filter (fun entry => !decide (entry.1 = key))

/-- HashMap.remove semantics: return the removed payload, if any, and the
cache without that key. -/
def cacheRemove (cache : PayloadCache) (key : BidRequest) :
    Option ExecutionPayload × PayloadCache :=
  match cache.find? (fun entry => decide (entry.1 = key)) with
  | none => (none, cache)
  | some entry => (some entry.2, cache.filter (fun e => !decide (e.1 = key)))

/-- HashMap.get semantics: the payload bound to the key, if any. -/
def cacheGet (cache : PayloadCache) (key : BidRequest) : Option ExecutionPayload :=
  (cache.find? (fun entry => decide (entry.1 = key))).map Prod.snd

/-- The relay: its own keys and context, the validator registry, and the
external collaborators (builder, SSZ header derivation, bid signing, block
signature verification) as oracle fields. The secret key is subsumed by the
sign_builder_bid oracle. -/
structure Relay where
  public_key : BlsPublicKey
  genesis_validators_root : Root
  context : Context
  validator_registry : ValidatorRegistry
  builder : BidRequest → Address → Nat → Except Error (ExecutionPayload × Nat)
  derive_header : ExecutionPayload → Except Error ExecutionPayloadHeader
  sign_builder_bid : ForkName → BuilderBid → Except Error Nat
  verify_block_signature : SignedBlindedBeaconBlock → BlsPublicKey → Root → Bool

/-! ## relay.rs: operations -/

/-- The expected current slot for a fork, from is_slot_timely:
32 + fork_epoch * slots_per_epoch. -/
def current_slot_for (fork : ForkName) (context : Context) : Slot :=
  match fork with
  | .bellatrix => 32 + context.bellatrix_fork_epoch * context.slots_per_epoch
  | .capella => 32 + context.capella_fork_epoch * context.slots_per_epoch

/-- is_slot_timely from relay.rs: slot + PROPOSAL_TOLERANCE_DELAY must reach
the expected current slot for the fork. -/
def is_slot_timely (slot : Slot) (fork : ForkName) (context : Context) : Bool :=
  decide (slot + PROPOSAL_TOLERANCE_DELAY ≥ current_slot_for fork context)

/-- is_parent_hash_on_chain_tip from relay.rs: equality with the terminal
block hash recorded in the context. -/
def is_parent_hash_on_chain_tip (parent_hash : Hash32) (context : Context) : Bool :=
  decide (parent_hash = context.terminal_block_hash)

/-- is_valid_proposer from relay.rs: the key resolves to a validator index. -/
def is_valid_proposer (public_key : BlsPublicKey)
    (validator_registry : ValidatorRegistry) : Bool :=
  (validator_registry.get_validator_index public_key).isSome

/-- validate_bid_request from relay.rs: timeliness (with the fork hardcoded
to Bellatrix), chain tip, and proposer registration, in that order. -/
def validate_bid_request (bid_request : BidRequest) (context : Context)
    (validator_registry : ValidatorRegistry) : Except Error Unit :=
  if !is_slot_timely bid_request.slot ForkName.bellatrix context then
    .error Error.InvalidSlot
  else if !is_parent_hash_on_chain_tip bid_request.parent_hash context then
    .error Error.InvalidParentHash
  else if !is_valid_proposer bid_request.public_key validator_registry then
    .error (Error.ValidatorNotRegistered bid_request.public_key)
  else
    .ok ()

/-- validate_execution_payload from relay.rs: the payload gas limit must
equal the proposer's registered gas limit exactly. -/
def validate_execution_payload (execution_payload : ExecutionPayload)
    (_value : Nat) (preferences : ValidatorRegistration) : Except Error Unit :=
  if execution_payload.gas_limit ≠ preferences.gas_limit then
    .error Error.InvalidGasLimit
  else
    .ok ()

/-- validate_signed_block from relay.rs: block-hash equality against the
cached payload, then signature verification via the oracle. -/
def validate_signed_block (relay : Relay) (signed_block : SignedBlindedBeaconBlock)
    (public_key : BlsPublicKey) (local_payload : ExecutionPayload) : Except Error Unit :=
  if signed_block.block_hash ≠ local_payload.block_hash then
    .error Error.UnknownBlock
  else if relay.verify_block_signature signed_block public_key
      relay.genesis_validators_root then
    .ok ()
  else
    .error Error.InvalidSignature

/-- fetch_best_bid from relay.rs, translated statement by statement. The
payload is inserted into the cache as soon as the header is derived; signing
happens after the insertion, and the Deneb arm of the fork dispatch panics
(after the insertion as well). -/
def fetch_best_bid (relay : Relay) (state : PayloadCache)
    (bid_request : BidRequest) : RunResult SignedBuilderBid × PayloadCache :=
  match validate_bid_request bid_request relay.context relay.validator_registry with
  | .error e => (.err e, state)
  | .ok () =>
    match relay.validator_registry.get_preferences bid_request.public_key with
    | none => (.err (Error.MissingPreferences bid_request.public_key), state)
    | some preferences =>
      match relay.builder bid_request preferences.fee_recipient preferences.gas_limit with
      | .error e => (.err e, state)
      | .ok (payload, value) =>
        match validate_execution_payload payload value preferences with
        | .error e => (.err e, state)
        | .ok () =>
          match relay.derive_header payload with
          | .error e => (.err e, state)
          | .ok header =>
            let state1 := cacheInsert state bid_request payload
            match header with
            | .bellatrix h =>
              let bid : BuilderBid :=
                { header := h, value := value, public_key := relay.public_key }
              match relay.sign_builder_bid ForkName.bellatrix bid with
              | .error e => (.err e, state1)
              | .ok signature =>
                (.ok (SignedBuilderBid.bellatrix bid signature), state1)
            | .capella h =>
              let bid : BuilderBid :=
                { header := h, value := value, public_key := relay.public_key }
              match relay.sign_builder_bid ForkName.capella bid with
              | .error e => (.err e, state1)
              | .ok signature =>
                (.ok (SignedBuilderBid.capella bid signature), state1)
            | .deneb _h => (.panicked, state1)

/-- open_bid from relay.rs: resolve the proposer key, rebuild the auction
identity, atomically take the cached payload (UnknownBid when absent), then
validate the signed block against it. -/
def open_bid (relay : Relay) (state : PayloadCache)
    (signed_block : SignedBlindedBeaconBlock) :
    Except Error ExecutionPayload × PayloadCache :=
  match relay.validator_registry.get_public_key signed_block.proposer_index with
  | none => (.error (Error.UnknownValidatorIndex signed_block.proposer_index), state)
  | some public_key =>
    let bid_request : BidRequest :=
      { slot := signed_block.slot
        parent_hash := signed_block.parent_hash
        public_key := public_key }
    match cacheRemove state bid_request with
    | (none, _) => (.error Error.UnknownBid, state)
    | (some payload, state1) =>
      match validate_signed_block relay signed_block bid_request.public_key payload with
      | .error e => (.error e, state1)
      | .ok () => (.ok payload, state1)

/-- The cache effect of on_slot from relay.rs: retain exactly the entries
with bid_request.slot + PROPOSAL_TOLERANCE_DELAY >= slot. The epoch-boundary
validator refresh touches only the external registry, not the cache. -/
def on_slot (state : PayloadCache) (slot : Slot) : PayloadCache :=
  state.filter (fun entry => decide (entry.1.slot + PROPOSAL_TOLERANCE_DELAY ≥ slot))

/-! ## Concrete instances used to evaluate the model -/

/-- A context with Bellatrix active from epoch 0, 32 slots per epoch and
terminal block hash 7: the expected current slot is 32. -/
def exCtx : Context :=
  { bellatrix_fork_epoch := 0
    capella_fork_epoch := 0
    slots_per_epoch := 32
    terminal_block_hash := 7 }

/-- A registry knowing a single validator: key 11 at index 0, with fee
recipient 1 and gas limit 30000000. -/
def exRegistry : ValidatorRegistry :=
  { get_validator_index := fun pk => if pk = 11 then some 0 else none
    get_preferences := fun pk =>
      if pk = 11 then some { fee_recipient := 1, gas_limit := 30000000 } else none
    get_public_key := fun index => if index = 0 then some 11 else none }

/-- A Bellatrix payload matching the registered gas limit, block hash 99. -/
def exPayload : ExecutionPayload :=
  .bellatrix { gas_limit := 30000000, block_hash := 99 }

/-- A Deneb payload matching the registered gas limit, block hash 99. -/
def exPayloadDeneb : ExecutionPayload :=
  .deneb { gas_limit := 30000000, block_hash := 99 }

/-- Header derivation that succeeds and preserves the fork variant, as the
mev-rs TryFrom instances do on well-formed payloads. -/
def deriveHeaderOk (payload : ExecutionPayload) : Except Error ExecutionPayloadHeader :=
  match payload with
  | .bellatrix data => .ok (.bellatrix data)
  | .capella data => .ok (.capella data)
  | .deneb data => .ok (.deneb data)

/-- A relay on which every collaborator succeeds. -/
def exRelay : Relay :=
  { public_key := 5
    genesis_validators_root := 3
    context := exCtx
    validator_registry := exRegistry
    builder := fun _ _ _ => .ok (exPayload, 1000)
    derive_header := deriveHeaderOk
    sign_builder_bid := fun _ _ => .ok 42
    verify_block_signature := fun _ _ _ => true }

/-- The same relay except that bid signing fails. -/
def exRelaySignFail : Relay :=
  { exRelay with sign_builder_bid := fun _ _ => .error (Error.Consensus 7) }

/-- The same relay except that the builder returns a Deneb payload. -/
def exRelayDeneb : Relay :=
  { exRelay with builder := fun _ _ _ => .ok (exPayloadDeneb, 1000) }

/-- A timely bid request for the registered validator at the chain tip. -/
def exReq : BidRequest :=
  { slot := 32, parent_hash := 7, public_key := 11 }

/-- A signed blinded beacon block matching exReq and exPayload. -/
def exBlock : SignedBlindedBeaconBlock :=
  { slot := 32
    parent_hash := 7
    proposer_index := 0
    block_hash := 99
    signature := 0 }

/-- A transaction whose effective tip is undefined at base fee 10: its max
fee per gas is only 5. -/
def txLowFee : TransactionSignedEcRecovered :=
  { max_fee_per_gas := 5, max_priority_fee_per_gas := none }

/-- The same transaction wrapped as a pool transaction. -/
def vtxLowFee : ValidPoolTransaction :=
  { transaction := txLowFee }

/-- A transaction whose u128 max fee is large enough that multiplying by 100
wraps: 2 to the 127. -/
def txHugeFee : TransactionSignedEcRecovered :=
  { max_fee_per_gas := 2 ^ 127, max_priority_fee_per_gas := none }

/-- The cache states reachable from the empty initial state by the three
cache-touching operations, with the relay (hence all oracle behaviours),
requests, blocks and slots universally quantified. -/
inductive Reachable : PayloadCache → Prop
  | init : Reachable []
  | fetch (relay : Relay) (bid_request : BidRequest) (state : PayloadCache) :
      Reachable state → Reachable (fetch_best_bid relay state bid_request).2
  | openb (relay : Relay) (signed_block : SignedBlindedBeaconBlock)
      (state : PayloadCache) :
      Reachable state → Reachable (open_bid relay state signed_block).2
  | slot (s : Slot) (state : PayloadCache) :
      Reachable state → Reachable (on_slot state s)

/-! ## Cache lemmas -/

/-- Filtering with a predicate that every match of the search predicate
passes does not change the result of find?. -/
theorem find_in_filter_of_imp {α : Type} (l : List α) (p q : α → Bool)
    (h : ∀ x, q x = true → p x = true) : (l.filter p).find? q = l.find? q := by
  induction l with
  | nil => rfl
  | cons a l ih =>
    by_cases hp : p a = true
    · by_cases hq : q a = true
      · rw [List.filter_cons_of_pos hp, List.find?_cons_of_pos _ hq,
          List.find?_cons_of_pos _ hq]
      · rw [List.filter_cons_of_pos hp, List.find?_cons_of_neg _ hq,
          List.find?_cons_of_neg _ hq, ih]
    · have hq : ¬ q a = true := fun hqa => hp (h a hqa)
      rw [List.filter_cons_of_neg hp, List.find?_cons_of_neg _ hq, ih]

/-- Looking up the key just inserted returns the new payload. -/
theorem cacheGet_insert_self (cache : PayloadCache) (key : BidRequest)
    (payload : ExecutionPayload) :
    cacheGet (cacheInsert cache key payload) key = some payload := by
  simp [cacheGet, cacheInsert, List.find?_cons_of_pos]

/-- Looking up a different key after an insert is unchanged. -/
theorem cacheGet_insert_other (cache : PayloadCache) (key other : BidRequest)
    (payload : ExecutionPayload) (h : other ≠ key) :
    cacheGet (cacheInsert cache key payload) other = cacheGet cache other := by
  unfold cacheGet cacheInsert
  rw [List.find?_cons_of_neg _ (by simp [Ne.symm h])]
  rw [find_in_filter_of_imp]
  intro e he
  simp only [decide_eq_true_eq] at he
  simp [he, h]

/-- A key absent from the cache stays absent after any filter. -/
theorem cacheGet_filter_of_none (cache : PayloadCache) (key : BidRequest)
    (p : BidRequest × ExecutionPayload → Bool) (h : cacheGet cache key = none) :
    cacheGet (cache.filter p) key = none := by
  unfold cacheGet at h ⊢
  rw [Option.map_eq_none'] at h ⊢
  rw [List.find?_eq_none] at h ⊢
  intro e he
  exact h e (List.mem_filter.mp he).1

/-- Keys of a filtered cache remain pairwise distinct. -/
theorem nodupKeys_filter (cache : PayloadCache)
    (p : BidRequest × ExecutionPayload → Bool)
    (h : (cache.map Prod.fst).Nodup) : ((cache.filter p).map Prod.fst).Nodup :=
  List.Nodup.sublist (List.Sublist.map Prod.fst (List.filter_sublist cache)) h

/-- Keys stay pairwise distinct across an insert. -/
theorem nodupKeys_cacheInsert (cache : PayloadCache) (key : BidRequest)
    (payload : ExecutionPayload) (h : (cache.map Prod.fst).Nodup) :
    ((cacheInsert cache key payload).map Prod.fst).Nodup := by
  unfold cacheInsert
  rw [List.map_cons]
  refine List.nodup_cons.mpr ⟨?_, nodupKeys_filter cache _ h⟩
  intro hmem
  rcases List.mem_map.mp hmem with ⟨e, he, hfst⟩
  rcases List.mem_filter.mp he with ⟨_, hne⟩
  simp only [Bool.not_eq_eq_eq_not, Bool.not_true, decide_eq_false_iff_not] at hne
  exact hne hfst

/-- An insert leaves exactly one entry with the inserted key. -/
theorem countP_cacheInsert_self (cache : PayloadCache) (key : BidRequest)
    (payload : ExecutionPayload) :
    (cacheInsert cache key payload).countP (fun e => decide (e.1 = key)) = 1 := by
  unfold cacheInsert
  rw [List.countP_cons]
  have hzero : (cache.filter (fun entry => !decide (entry.1 = key))).countP
      (fun e => decide (e.1 = key)) = 0 := by
    rw [List.countP_eq_zero]
    intro e he
    rcases List.mem_filter.mp he with ⟨_, hne⟩
    simpa using hne
  simp [hzero]

/-- Case analysis on the cache effect of fetch_best_bid: either the state is
returned untouched (an error before the caching step) or the builder payload
has been inserted under the request identity. -/
theorem fetch_state_cases (relay : Relay) (state : PayloadCache)
    (bid_request : BidRequest) :
    (fetch_best_bid relay state bid_request).2 = state ∨
    ∃ payload, (fetch_best_bid relay state bid_request).2 =
      cacheInsert state bid_request payload := by
  unfold fetch_best_bid
  repeat' first
  | (left; rfl)
  | (right; exact ⟨_, rfl⟩)
  | split
  | dsimp only

/-- Case analysis on the cache effect of open_bid: either the state is
returned untouched or one key has been filtered out of it. -/
theorem open_state_cases (relay : Relay) (state : PayloadCache)
    (signed_block : SignedBlindedBeaconBlock) :
    (open_bid relay state signed_block).2 = state ∨
    ∃ key, (open_bid relay state signed_block).2 =
      state.filter (fun e => !decide (e.1 = key)) := by
  unfold open_bid cacheRemove
  cases hpk : relay.validator_registry.get_public_key signed_block.proposer_index with
  | none => left; rfl
  | some pk =>
    dsimp only
    cases hf : List.find?
        (fun entry => decide (entry.1 =
          { slot := signed_block.slot
            parent_hash := signed_block.parent_hash
            public_key := pk : BidRequest })) state with
    | none => left; rfl
    | some entry =>
      right
      refine ⟨{ slot := signed_block.slot
                parent_hash := signed_block.parent_hash
                public_key := pk }, ?_⟩
      cases hv : validate_signed_block relay signed_block pk entry.2 <;>
        simp only [hv]

/-- The key just erased is absent from the filtered cache. -/
theorem cacheGet_erase_self (state : PayloadCache) (key : BidRequest) :
    cacheGet (state.filter (fun e => !decide (e.1 = key))) key = none := by
  unfold cacheGet
  rw [Option.map_eq_none', List.find?_eq_none]
  intro e he
  rcases List.mem_filter.mp he with ⟨_, hne⟩
  simpa using hne

/-- A bid request below the expected slot fails validation with InvalidSlot
before the later checks run. -/
theorem validate_bid_request_invalid_slot (bid_request : BidRequest)
    (context : Context) (validator_registry : ValidatorRegistry)
    (h : bid_request.slot + PROPOSAL_TOLERANCE_DELAY <
      current_slot_for ForkName.bellatrix context) :
    validate_bid_request bid_request context validator_registry =
      .error Error.InvalidSlot := by
  unfold validate_bid_request
  have ht : is_slot_timely bid_request.slot ForkName.bellatrix context = false := by
    unfold is_slot_timely
    exact decide_eq_false (fun hge => Nat.lt_irrefl _ (Nat.lt_of_lt_of_le h hge))
  rw [ht]
  simp

/-- Full characterization of fetch_best_bid: either it fails before the
caching step and returns the state untouched, or the builder payload is
inserted and the call ends in a signing failure, a signed bid, or the Deneb
panic. -/
theorem fetch_result_state (relay : Relay) (state : PayloadCache)
    (bid_request : BidRequest) :
    (∃ e, fetch_best_bid relay state bid_request = (.err e, state)) ∨
    (∃ preferences payload value,
      relay.validator_registry.get_preferences bid_request.public_key =
        some preferences ∧
      relay.builder bid_request preferences.fee_recipient preferences.gas_limit =
        .ok (payload, value) ∧
      ((∃ fork bid e, relay.sign_builder_bid fork bid = .error e ∧
          fetch_best_bid relay state bid_request =
            (.err e, cacheInsert state bid_request payload)) ∨
       (∃ bid, fetch_best_bid relay state bid_request =
          (.ok bid, cacheInsert state bid_request payload)) ∨
       fetch_best_bid relay state bid_request =
          (.panicked, cacheInsert state bid_request payload))) := by
  cases hv : validate_bid_request bid_request relay.context relay.validator_registry with
  | error e0 =>
    exact Or.inl ⟨e0, by unfold fetch_best_bid; simp only [hv]⟩
  | ok u =>
    cases u
    cases hp : relay.validator_registry.get_preferences bid_request.public_key with
    | none =>
      exact Or.inl ⟨Error.MissingPreferences bid_request.public_key, by
        unfold fetch_best_bid; simp only [hv, hp]⟩
    | some preferences =>
      cases hb : relay.builder bid_request preferences.fee_recipient
          preferences.gas_limit with
      | error e0 =>
        exact Or.inl ⟨e0, by unfold fetch_best_bid; simp only [hv, hp, hb]⟩
      | ok pv =>
        obtain ⟨payload, value⟩ := pv
        cases hval : validate_execution_payload payload value preferences with
        | error e0 =>
          exact Or.inl ⟨e0, by unfold fetch_best_bid; simp only [hv, hp, hb, hval]⟩
        | ok u2 =>
          cases u2
          cases hd : relay.derive_header payload with
          | error e0 =>
            exact Or.inl ⟨e0, by
              unfold fetch_best_bid; simp only [hv, hp, hb, hval, hd]⟩
          | ok header =>
            refine Or.inr ⟨preferences, payload, value, rfl, hb, ?_⟩
            cases header with
            | bellatrix hdata =>
              cases hs : relay.sign_builder_bid ForkName.bellatrix
                  { header := hdata, value := value, public_key := relay.public_key } with
              | error e0 =>
                exact Or.inl ⟨ForkName.bellatrix,
                  { header := hdata, value := value, public_key := relay.public_key },
                  e0, hs, by
                  unfold fetch_best_bid; simp only [hv, hp, hb, hval, hd, hs]⟩
              | ok signature =>
                exact Or.inr (Or.inl ⟨SignedBuilderBid.bellatrix
                  { header := hdata, value := value, public_key := relay.public_key }
                  signature, by
                  unfold fetch_best_bid; simp only [hv, hp, hb, hval, hd, hs]⟩)
            | capella hdata =>
              cases hs : relay.sign_builder_bid ForkName.capella
                  { header := hdata, value := value, public_key := relay.public_key } with
              | error e0 =>
                exact Or.inl ⟨ForkName.capella,
                  { header := hdata, value := value, public_key := relay.public_key },
                  e0, hs, by
                  unfold fetch_best_bid; simp only [hv, hp, hb, hval, hd, hs]⟩
              | ok signature =>
                exact Or.inr (Or.inl ⟨SignedBuilderBid.capella
                  { header := hdata, value := value, public_key := relay.public_key }
                  signature, by
                  unfold fetch_best_bid; simp only [hv, hp, hb, hval, hd, hs]⟩)
            | deneb hdata =>
              exact Or.inr (Or.inr (by
                unfold fetch_best_bid; simp only [hv, hp, hb, hval, hd]))

/-- open_bid on a request whose identity is not cached fails with UnknownBid
and returns the state untouched. -/
theorem open_bid_of_absent (relay : Relay) (state : PayloadCache)
    (signed_block : SignedBlindedBeaconBlock) (pk : BlsPublicKey)
    (hpk : relay.validator_registry.get_public_key signed_block.proposer_index =
      some pk)
    (habs : cacheGet state
      { slot := signed_block.slot
        parent_hash := signed_block.parent_hash
        public_key := pk } = none) :
    open_bid relay state signed_block = (.error Error.UnknownBid, state) := by
  have hfind := Option.map_eq_none'.mp habs
  unfold open_bid cacheRemove
  simp only [hpk]
  rw [hfind]

/-- A successful open_bid resolved a proposer key and left the cache with
that identity filtered out. -/
theorem open_bid_ok_state (relay : Relay) (state : PayloadCache)
    (signed_block : SignedBlindedBeaconBlock) (payload : ExecutionPayload)
    (state2 : PayloadCache)
    (h : open_bid relay state signed_block = (.ok payload, state2)) :
    ∃ pk, relay.validator_registry.get_public_key signed_block.proposer_index =
        some pk ∧
      state2 = state.filter (fun e => !decide (e.1 =
        { slot := signed_block.slot
          parent_hash := signed_block.parent_hash
          public_key := pk : BidRequest })) := by
  unfold open_bid cacheRemove at h
  cases hpk : relay.validator_registry.get_public_key signed_block.proposer_index with
  | none =>
    rw [hpk] at h
    simp at h
  | some pk =>
    rw [hpk] at h
    dsimp only at h
    refine ⟨pk, rfl, ?_⟩
    cases hf : List.find?
        (fun entry => decide (entry.1 =
          { slot := signed_block.slot
            parent_hash := signed_block.parent_hash
            public_key := pk : BidRequest })) state with
    | none =>
      rw [hf] at h
      simp at h
    | some entry =>
      rw [hf] at h
      dsimp only at h
      cases hvs : validate_signed_block relay signed_block pk entry.2 with
      | error e =>
        rw [hvs] at h
        simp at h
      | ok u =>
        cases u
        rw [hvs] at h
        dsimp only at h
        injection h with h1 h2
        exact h2.symm

/-! ## Claims -/

/-- C3: on_slot removes exactly the entries with identity.slot + tolerance
below the new slot (tolerance = 1) and retains every entry with
identity.slot + tolerance at or above it, including the exact boundary. -/
theorem C3_on_slot_eviction_boundary :
    PROPOSAL_TOLERANCE_DELAY = 1 ∧
    ∀ (state : PayloadCache) (s : Slot) (entry : BidRequest × ExecutionPayload),
      entry ∈ on_slot state s ↔
        entry ∈ state ∧ entry.1.slot + PROPOSAL_TOLERANCE_DELAY ≥ s := by
  refine ⟨rfl, ?_⟩
  intro state s entry
  simp [on_slot, List.mem_filter]

/-- C3 witness: the boundary entry at slot 32 survives on_slot 33. -/
theorem C3_witness :
    (exReq, exPayload) ∈ on_slot [(exReq, exPayload)] 33 ↔
      (exReq, exPayload) ∈ [(exReq, exPayload)] ∧
        exReq.slot + PROPOSAL_TOLERANCE_DELAY ≥ 33 :=
  C3_on_slot_eviction_boundary.2 [(exReq, exPayload)] 33 (exReq, exPayload)

/-- C5: at a base fee of 10, a transaction with max fee per gas 5 has an
undefined effective tip, and both profit implementations panic (unwrap on
None) on it instead of propagating a non-fatal error result. This evaluates
the code at the failing input of the code_bug record. -/
theorem C5_profit_panics_on_undefined_tip :
    txLowFee.effective_tip_per_gas (some 10) = none ∧
    txLowFee.profit 10 0 = PanicOr.panicked ∧
    vtxLowFee.profit 10 0 = PanicOr.panicked := by
  exact ⟨rfl, rfl, rfl⟩

/-- C6: a bid request with slot + tolerance below the expected current slot
for the fork is rejected with InvalidSlot, the cache is returned unchanged,
and the outcome is the same for every builder, i.e. the builder collaborator
is never consulted. -/
theorem C6_untimely_rejected_before_builder (relay : Relay)
    (state : PayloadCache) (bid_request : BidRequest)
    (h : bid_request.slot + PROPOSAL_TOLERANCE_DELAY <
      current_slot_for ForkName.bellatrix relay.context) :
    fetch_best_bid relay state bid_request = (.err Error.InvalidSlot, state) ∧
    ∀ builder2,
      fetch_best_bid { relay with builder := builder2 } state bid_request =
        (.err Error.InvalidSlot, state) := by
  constructor
  · unfold fetch_best_bid
    rw [validate_bid_request_invalid_slot bid_request relay.context
      relay.validator_registry h]
  · intro builder2
    unfold fetch_best_bid
    rw [validate_bid_request_invalid_slot bid_request
      ({ relay with builder := builder2 } : Relay).context
      ({ relay with builder := builder2 } : Relay).validator_registry h]

/-- C6 witness: slot 30 against an expected slot of 32 is rejected with the
cache untouched, whatever the builder would have answered. -/
theorem C6_witness :
    fetch_best_bid exRelay [] { slot := 30, parent_hash := 7, public_key := 11 } =
      (.err Error.InvalidSlot, ([] : PayloadCache)) ∧
    ∀ builder2,
      fetch_best_bid { exRelay with builder := builder2 } []
          { slot := 30, parent_hash := 7, public_key := 11 } =
        (.err Error.InvalidSlot, ([] : PayloadCache)) :=
  C6_untimely_rejected_before_builder exRelay []
    { slot := 30, parent_hash := 7, public_key := 11 } (by decide)

/-- Arithmetic core of the cutoff-price formula under a no-overflow bound:
the wrap is the identity, the quotient is monotone in the percent, and the
percent 100 recovers the fee exactly. -/
theorem cut_off_formula_spec (m : Nat) (hm : m * 100 < U128_LIMIT) :
    (∀ p, p ≤ 100 → m * p % U128_LIMIT / 100 = m * p / 100) ∧
    (∀ p q, p ≤ q → q ≤ 100 →
      m * p % U128_LIMIT / 100 ≤ m * q % U128_LIMIT / 100) ∧
    m * 100 % U128_LIMIT / 100 = m := by
  have hmod : ∀ p, p ≤ 100 → m * p % U128_LIMIT = m * p := by
    intro p hp
    exact Nat.mod_eq_of_lt (lt_of_le_of_lt (Nat.mul_le_mul_left m hp) hm)
  refine ⟨fun p hp => by rw [hmod p hp], ?_, ?_⟩
  · intro p q hpq hq
    rw [hmod p (le_trans hpq hq), hmod q hq]
    exact Nat.div_le_div_right (Nat.mul_le_mul_left m hpq)
  · rw [hmod 100 le_rfl]
    omega

/-- C8 (amended): for transactions whose u128 product max_fee_per_gas * 100
does not overflow, both cut_off_price implementations compute the exact
truncating floor of max_fee_per_gas * p / 100, are monotone in the percent
over 0..=100, and return max_fee_per_gas exactly at p = 100; the overflow
side condition is forced by the wrap counterexample. -/
theorem C8_amended_cut_off_price :
    (∀ (tx : TransactionSignedEcRecovered), tx.max_fee_per_gas * 100 < U128_LIMIT →
      (∀ p, p ≤ 100 → tx.cut_off_price p = tx.max_fee_per_gas * p / 100) ∧
      (∀ p q, p ≤ q → q ≤ 100 → tx.cut_off_price p ≤ tx.cut_off_price q) ∧
      tx.cut_off_price 100 = tx.max_fee_per_gas) ∧
    (∀ (tx : ValidPoolTransaction), tx.max_fee_per_gas * 100 < U128_LIMIT →
      (∀ p, p ≤ 100 → tx.cut_off_price p = tx.max_fee_per_gas * p / 100) ∧
      (∀ p q, p ≤ q → q ≤ 100 → tx.cut_off_price p ≤ tx.cut_off_price q) ∧
      tx.cut_off_price 100 = tx.max_fee_per_gas) := by
  constructor
  · intro tx hm
    exact cut_off_formula_spec tx.max_fee_per_gas hm
  · intro tx hm
    exact cut_off_formula_spec tx.max_fee_per_gas hm

/-- C8 counterexample: at max_fee_per_gas = 2 to the 127 the u128 product
with 100 wraps, so cut_off_price at p = 100 returns 0, not the fee: the
claim as stated over every transaction is false. -/
theorem C8_counterexample :
    txHugeFee.max_fee_per_gas = 2 ^ 127 ∧
    txHugeFee.cut_off_price 100 = 0 ∧
    txHugeFee.cut_off_price 100 ≠ txHugeFee.max_fee_per_gas := by
  refine ⟨rfl, ?_, ?_⟩ <;> decide

/-- C8 witness: the amended statement evaluated on the small fee fixture. -/
theorem C8_witness :
    ((∀ p, p ≤ 100 → txLowFee.cut_off_price p = txLowFee.max_fee_per_gas * p / 100) ∧
     (∀ p q, p ≤ q → q ≤ 100 → txLowFee.cut_off_price p ≤ txLowFee.cut_off_price q) ∧
     txLowFee.cut_off_price 100 = txLowFee.max_fee_per_gas) ∧
    ((∀ p, p ≤ 100 → vtxLowFee.cut_off_price p = vtxLowFee.max_fee_per_gas * p / 100) ∧
     (∀ p q, p ≤ q → q ≤ 100 → vtxLowFee.cut_off_price p ≤ vtxLowFee.cut_off_price q) ∧
     vtxLowFee.cut_off_price 100 = vtxLowFee.max_fee_per_gas) :=
  ⟨C8_amended_cut_off_price.1 txLowFee (by decide),
   C8_amended_cut_off_price.2 vtxLowFee (by decide)⟩

/-- C9: when validation passes, preferences exist, the builder returns a
payload with the registered gas limit and the derived header is the Deneb
variant, fetch_best_bid panics (the unimplemented arm of the fork dispatch)
and it does so after the payload has been inserted into the cache. -/
theorem C9_deneb_panics_after_insert (relay : Relay) (state : PayloadCache)
    (bid_request : BidRequest) (preferences : ValidatorRegistration)
    (payload : ExecutionPayload) (value : Nat) (hdata : PayloadData)
    (hv : validate_bid_request bid_request relay.context relay.validator_registry =
      .ok ())
    (hp : relay.validator_registry.get_preferences bid_request.public_key =
      some preferences)
    (hb : relay.builder bid_request preferences.fee_recipient preferences.gas_limit =
      .ok (payload, value))
    (hg : payload.gas_limit = preferences.gas_limit)
    (hd : relay.derive_header payload = .ok (ExecutionPayloadHeader.deneb hdata)) :
    fetch_best_bid relay state bid_request =
      (.panicked, cacheInsert state bid_request payload) := by
  have hval : validate_execution_payload payload value preferences = .ok () := by
    unfold validate_execution_payload
    simp [hg]
  unfold fetch_best_bid
  simp only [hv, hp, hb, hval, hd]

/-- C9 witness: the relay whose builder returns a Deneb payload panics on a
valid request, leaving the payload cached. -/
theorem C9_witness :
    fetch_best_bid exRelayDeneb [] exReq =
      (.panicked, cacheInsert [] exReq exPayloadDeneb) :=
  C9_deneb_panics_after_insert exRelayDeneb [] exReq
    { fee_recipient := 1, gas_limit := 30000000 } exPayloadDeneb 1000
    { gas_limit := 30000000, block_hash := 99 } rfl rfl rfl rfl rfl

/-- C10: both profit implementations are independent of the gas_used
argument: it is accepted at the interface and never read. -/
theorem C10_profit_ignores_gas_used :
    ∀ (tx : TransactionSignedEcRecovered) (vtx : ValidPoolTransaction)
      (base_fee g1 g2 : Nat),
      tx.profit base_fee g1 = tx.profit base_fee g2 ∧
      vtx.profit base_fee g1 = vtx.profit base_fee g2 := by
  intro tx vtx base_fee g1 g2
  exact ⟨rfl, rfl⟩

/-- C1 (amended): every error-returning fetch_best_bid call leaves the cache
unchanged except a signing failure: signing runs after the payload has been
inserted, so in that case the cache after the call holds the new entry under
the request identity. -/
theorem C1_error_cache_unchanged_except_signing (relay : Relay)
    (state : PayloadCache) (bid_request : BidRequest) (e : Error)
    (state2 : PayloadCache)
    (h : fetch_best_bid relay state bid_request = (.err e, state2)) :
    state2 = state ∨
    ∃ preferences payload value,
      relay.validator_registry.get_preferences bid_request.public_key =
        some preferences ∧
      relay.builder bid_request preferences.fee_recipient preferences.gas_limit =
        .ok (payload, value) ∧
      (∃ fork bid, relay.sign_builder_bid fork bid = .error e) ∧
      state2 = cacheInsert state bid_request payload := by
  rcases fetch_result_state relay state bid_request with
    ⟨e2, hf⟩ | ⟨preferences, payload, value, hp, hb, hrest⟩
  · rw [h] at hf
    injection hf with h1 h2
    exact Or.inl h2
  · rcases hrest with ⟨fork, bidm, e0, hs, hf⟩ | ⟨bid2, hf⟩ | hf
    · rw [h] at hf
      injection hf with h1 h2
      injection h1 with he
      exact Or.inr ⟨preferences, payload, value, hp, hb,
        ⟨fork, bidm, hs.trans (congrArg Except.error he.symm)⟩, h2⟩
    · rw [h] at hf
      injection hf with h1 h2
      simp at h1
    · rw [h] at hf
      injection hf with h1 h2
      simp at h1

/-- C1 witness: the amended disjunction instantiated on the relay whose
signing oracle fails. -/
theorem C1_witness :
    ([(exReq, exPayload)] : PayloadCache) = [] ∨
    ∃ preferences payload value,
      exRelaySignFail.validator_registry.get_preferences exReq.public_key =
        some preferences ∧
      exRelaySignFail.builder exReq preferences.fee_recipient
        preferences.gas_limit = .ok (payload, value) ∧
      (∃ fork bid, exRelaySignFail.sign_builder_bid fork bid =
        .error (Error.Consensus 7)) ∧
      ([(exReq, exPayload)] : PayloadCache) = cacheInsert [] exReq payload :=
  C1_error_cache_unchanged_except_signing exRelaySignFail [] exReq
    (Error.Consensus 7) [(exReq, exPayload)] rfl

/-- C1 counterexample: on the relay whose signing oracle fails, the call
returns an error yet the cache is no longer the empty cache it started as:
an error return with a mutated cache, contradicting the claim as stated. -/
theorem C1_counterexample :
    (fetch_best_bid exRelaySignFail [] exReq).1 =
      RunResult.err (Error.Consensus 7) ∧
    (fetch_best_bid exRelaySignFail [] exReq).2 ≠ [] := by
  refine ⟨rfl, ?_⟩
  decide

/-- C2 (amended): once an identity is absent (opened or evicted) it stays
absent across open_bid, on_slot, and fetch_best_bid for other identities,
but a later successful fetch_best_bid for the same identity re-creates the
entry: nothing marks an identity as consumed. -/
theorem C2_consumed_identity_absent_until_refetch (relay : Relay)
    (state : PayloadCache) (key : BidRequest)
    (h : cacheGet state key = none) :
    (∀ signed_block, cacheGet (open_bid relay state signed_block).2 key = none) ∧
    (∀ s, cacheGet (on_slot state s) key = none) ∧
    (∀ bid_request, bid_request ≠ key →
      cacheGet (fetch_best_bid relay state bid_request).2 key = none) ∧
    (∀ bid state2, fetch_best_bid relay state key = (.ok bid, state2) →
      ∃ payload, cacheGet state2 key = some payload) := by
  refine ⟨?_, ?_, ?_, ?_⟩
  · intro signed_block
    rcases open_state_cases relay state signed_block with he | ⟨k2, he⟩
    · rw [he]; exact h
    · rw [he]; exact cacheGet_filter_of_none state key _ h
  · intro s
    exact cacheGet_filter_of_none state key _ h
  · intro bid_request hne
    rcases fetch_state_cases relay state bid_request with he | ⟨p, he⟩
    · rw [he]; exact h
    · rw [he, cacheGet_insert_other state bid_request key p (Ne.symm hne)]
      exact h
  · intro bid state2 hf
    rcases fetch_result_state relay state key with
      ⟨e2, he⟩ | ⟨preferences, payload, value, hp, hb, hrest⟩
    · rw [hf] at he
      injection he with h1 h2
      simp at h1
    · rcases hrest with ⟨fork, bidm, e0, hs, he⟩ | ⟨bid2, he⟩ | he
      · rw [hf] at he
        injection he with h1 h2
        simp at h1
      · rw [hf] at he
        injection he with h1 h2
        refine ⟨payload, ?_⟩
        rw [h2]
        exact cacheGet_insert_self state key payload
      · rw [hf] at he
        injection he with h1 h2
        simp at h1

/-- C2 witness: the amended conjunction instantiated at the empty cache and
the fixture identity. -/
theorem C2_witness :
    (∀ signed_block, cacheGet (open_bid exRelay [] signed_block).2 exReq = none) ∧
    (∀ s, cacheGet (on_slot [] s) exReq = none) ∧
    (∀ bid_request, bid_request ≠ exReq →
      cacheGet (fetch_best_bid exRelay [] bid_request).2 exReq = none) ∧
    (∀ bid state2, fetch_best_bid exRelay [] exReq = (.ok bid, state2) →
      ∃ payload, cacheGet state2 exReq = some payload) :=
  C2_consumed_identity_absent_until_refetch exRelay [] exReq rfl

/-- C2 counterexample: a fetched bid is opened (terminal Opened state, cache
emptied), yet a further fetch_best_bid for the very same identity succeeds
and re-caches a payload for it: the identity is offered again, refuting
exactly-once consumption. -/
theorem C2_counterexample :
    (open_bid exRelay (fetch_best_bid exRelay [] exReq).2 exBlock).1 =
      Except.ok exPayload ∧
    (open_bid exRelay (fetch_best_bid exRelay [] exReq).2 exBlock).2 = [] ∧
    cacheGet (fetch_best_bid exRelay
        (open_bid exRelay (fetch_best_bid exRelay [] exReq).2 exBlock).2
        exReq).2 exReq = some exPayload := by
  exact ⟨rfl, rfl, rfl⟩

/-- C4: open_bid on the identity derived from the signed block fails with
UnknownBid (cache untouched) whenever no entry exists for it, and a
successful open_bid removes the entry, so an immediate second open_bid for
the same identity fails with UnknownBid. -/
theorem C4_open_bid_consumes (relay : Relay) (state : PayloadCache)
    (signed_block : SignedBlindedBeaconBlock) (pk : BlsPublicKey)
    (hpk : relay.validator_registry.get_public_key signed_block.proposer_index =
      some pk) :
    (cacheGet state
        { slot := signed_block.slot
          parent_hash := signed_block.parent_hash
          public_key := pk } = none →
      open_bid relay state signed_block = (.error Error.UnknownBid, state)) ∧
    (∀ payload state2,
      open_bid relay state signed_block = (.ok payload, state2) →
      cacheGet state2
        { slot := signed_block.slot
          parent_hash := signed_block.parent_hash
          public_key := pk } = none ∧
      (open_bid relay state2 signed_block).1 = .error Error.UnknownBid) := by
  constructor
  · intro habs
    exact open_bid_of_absent relay state signed_block pk hpk habs
  · intro payload state2 hok
    rcases open_bid_ok_state relay state signed_block payload state2 hok with
      ⟨pk2, hpk2, hst⟩
    have hpkeq : pk2 = pk := by
      rw [hpk] at hpk2
      injection hpk2 with h1
      exact h1.symm
    subst hpkeq
    have habs2 : cacheGet state2
        { slot := signed_block.slot
          parent_hash := signed_block.parent_hash
          public_key := pk2 : BidRequest } = none := by
      rw [hst]
      exact cacheGet_erase_self state _
    refine ⟨habs2, ?_⟩
    rw [open_bid_of_absent relay state2 signed_block pk2 hpk habs2]

/-- C4 witness: a cached fixture entry is consumed by open_bid and the
second open_bid fails with UnknownBid. -/
theorem C4_witness :
    (cacheGet [(exReq, exPayload)]
        { slot := exBlock.slot
          parent_hash := exBlock.parent_hash
          public_key := 11 } = none →
      open_bid exRelay [(exReq, exPayload)] exBlock =
        (.error Error.UnknownBid, [(exReq, exPayload)])) ∧
    (∀ payload state2,
      open_bid exRelay [(exReq, exPayload)] exBlock = (.ok payload, state2) →
      cacheGet state2
        { slot := exBlock.slot
          parent_hash := exBlock.parent_hash
          public_key := 11 } = none ∧
      (open_bid exRelay state2 exBlock).1 = .error Error.UnknownBid) :=
  C4_open_bid_consumes exRelay [(exReq, exPayload)] exBlock 11 rfl

/-- C7: every reachable cache state has pairwise-distinct identities (at
most one live entry per AuctionIdentity), and a successful fetch_best_bid
leaves exactly one entry for the requested identity, the state being the
overwriting insert of the builder payload. -/
theorem C7_at_most_one_entry_per_identity :
    (∀ state, Reachable state → (state.map Prod.fst).Nodup) ∧
    (∀ relay state bid_request bid state2,
      fetch_best_bid relay state bid_request = (.ok bid, state2) →
      state2.countP (fun e => decide (e.1 = bid_request)) = 1 ∧
      ∃ payload, state2 = cacheInsert state bid_request payload) := by
  constructor
  · intro state hr
    induction hr with
    | init => simp
    | fetch relay bid_request st hst ih =>
      rcases fetch_state_cases relay st bid_request with he | ⟨p, he⟩
      · rw [he]; exact ih
      · rw [he]; exact nodupKeys_cacheInsert st bid_request p ih
    | openb relay signed_block st hst ih =>
      rcases open_state_cases relay st signed_block with he | ⟨k, he⟩
      · rw [he]; exact ih
      · rw [he]; exact nodupKeys_filter st _ ih
    | slot s st hst ih =>
      exact nodupKeys_filter st _ ih
  · intro relay state bid_request bid state2 hf
    rcases fetch_result_state relay state bid_request with
      ⟨e2, he⟩ | ⟨preferences, payload, value, hp, hb, hrest⟩
    · rw [hf] at he
      injection he with h1 h2
      simp at h1
    · rcases hrest with ⟨fork, bidm, e0, hs, he⟩ | ⟨bid2, he⟩ | he
      · rw [hf] at he
        injection he with h1 h2
        simp at h1
      · rw [hf] at he
        injection he with h1 h2
        refine ⟨?_, payload, h2⟩
        rw [h2]
        exact countP_cacheInsert_self state bid_request payload
      · rw [hf] at he
        injection he with h1 h2
        simp at h1

/-- C7 witness: the reachable singleton state after one successful fetch has
distinct keys, and the successful fetch left exactly one entry for the
fixture identity. -/
theorem C7_witness :
    (([(exReq, exPayload)] : PayloadCache).map Prod.fst).Nodup ∧
    ([(exReq, exPayload)] : PayloadCache).countP
      (fun e => decide (e.1 = exReq)) = 1 :=
  ⟨C7_at_most_one_entry_per_identity.1 [(exReq, exPayload)]
      (Reachable.fetch exRelay exReq [] Reachable.init),
   (C7_at_most_one_entry_per_identity.2 exRelay [] exReq
      (SignedBuilderBid.bellatrix
        { header := { gas_limit := 30000000, block_hash := 99 }
          value := 1000
          public_key := 5 } 42)
      [(exReq, exPayload)] rfl).1⟩

end MevRs
